import Mathlib

/-!
Verification of the ECS (Entity-Component-System) core of `pywrkgame`.

The entity and component managers are embedded from
`src/tests/python/test_ecs_framework_properties.py`
(`MockEntityManager`, `MockComponentManager`): the live entity set is a
Python `set` modelled as a duplicate-free-by-construction operation list
(`List.insert` is insert-if-absent, exactly `set.add`), the free list is a
FIFO queue (`pop(0)` from the front, `append` at the back), and each
component store is a Python `dict` modelled as a finite partial map
`Nat → Option V`.
-/

set_option autoImplicit false

/-- Embedding of `MockEntityManager.__init__`: `entities` is the live set
(a Python `set`, held as a list), `next_id` the monotone counter starting
at 1, `available_ids` the FIFO free list of destroyed identifiers. -/
structure MockEntityManager where
  entities : List Nat
  next_id : Nat
  available_ids : List Nat
deriving Repr, DecidableEq

namespace MockEntityManager

/-- The fresh manager produced by `MockEntityManager()`. -/
def init : MockEntityManager where
  entities := []
  next_id := 1
  available_ids := []

/-- Embedding of `MockEntityManager.create_entity`: pop the front of the
free list if non-empty, otherwise take `next_id` and bump the counter;
either way add the identifier to the live set (`set.add` =
insert-if-absent) and return it. -/
def create_entity (m : MockEntityManager) : MockEntityManager × Nat :=
  match m.available_ids with
  | entity_id :: rest =>
      ({ m with available_ids := rest,
                entities := m.entities.insert entity_id }, entity_id)
  | [] =>
      ({ m with next_id := m.next_id + 1,
                entities := m.entities.insert m.next_id }, m.next_id)

/-- Embedding of `MockEntityManager.destroy_entity`: if the identifier is
live, remove it from the live set, append it to the back of the free list
and return `true`; otherwise return `false` with the state unchanged. -/
def destroy_entity (m : MockEntityManager) (entity_id : Nat) :
    MockEntityManager × Bool :=
  if entity_id ∈ m.entities then
    ({ m with entities := m.entities.erase entity_id,
              available_ids := m.available_ids ++ [entity_id] }, true)
  else
    (m, false)

/-- Embedding of `MockEntityManager.is_entity_valid`. -/
def is_entity_valid (m : MockEntityManager) (entity_id : Nat) : Bool :=
  entity_id ∈ m.entities

/-- Embedding of `MockEntityManager.get_entity_count`. -/
def get_entity_count (m : MockEntityManager) : Nat :=
  m.entities.length

end MockEntityManager

/-- One call against the entity manager: `create_entity()` or
`destroy_entity(id)`. -/
inductive EMOp where
  | create : EMOp
  | destroy : Nat → EMOp
deriving Repr, DecidableEq

namespace MockEntityManager

/-- Apply one call to the manager, keeping the resulting state. -/
def step (m : MockEntityManager) : EMOp → MockEntityManager
  | EMOp.create => m.create_entity.1
  | EMOp.destroy e => (m.destroy_entity e).1

/-- Apply a sequence of calls in order. -/
def runOps (m : MockEntityManager) (ops : List EMOp) : MockEntityManager :=
  ops.foldl step m

end MockEntityManager

/-- A state is reachable when some sequence of `create_entity` /
`destroy_entity` calls from a fresh manager produces it. -/
def Reachable (m : MockEntityManager) : Prop :=
  ∃ ops : List EMOp, MockEntityManager.init.runOps ops = m

/-- Embedding of `MockComponentManager`: the Python `dict`
`entity_id -> component_data`, as a partial map. -/
structure MockComponentManager (V : Type) where
  components : Nat → Option V

namespace MockComponentManager

variable {V : Type}

/-- The fresh store produced by `MockComponentManager()`: empty `dict`. -/
def empty (V : Type) : MockComponentManager V where
  components := fun _ => none

/-- Embedding of `MockComponentManager.add_component`: dict assignment,
inserting or overwriting the entry for `entity_id`. -/
def add_component (cm : MockComponentManager V) (entity_id : Nat)
    (component_data : V) : MockComponentManager V where
  components := fun x => if x = entity_id then some component_data
                         else cm.components x

/-- Embedding of `MockComponentManager.remove_component`: delete the entry
and return `true` when present, otherwise return `false` with the store
unchanged. -/
def remove_component (cm : MockComponentManager V) (entity_id : Nat) :
    MockComponentManager V × Bool :=
  if (cm.components entity_id).isSome then
    (⟨fun x => if x = entity_id then none else cm.components x⟩, true)
  else
    (cm, false)

/-- Embedding of `MockComponentManager.has_component`. -/
def has_component (cm : MockComponentManager V) (entity_id : Nat) : Bool :=
  (cm.components entity_id).isSome

/-- Embedding of `MockComponentManager.get_component`: `dict.get`, which
yields the stored value or the absent marker (`None` / `none`). -/
def get_component (cm : MockComponentManager V) (entity_id : Nat) :
    Option V :=
  cm.components entity_id

/-- Embedding of `MockComponentManager.entity_destroyed`: delegate to
`remove_component`, discarding its report. -/
def entity_destroyed (cm : MockComponentManager V) (entity_id : Nat) :
    MockComponentManager V :=
  (cm.remove_component entity_id).1

end MockComponentManager

/-- The entity-manager invariant maintained by every reachable state: the
counter starts at 1, the live set and the free list each hold no
duplicates, the two are disjoint, and every identifier ever issued is at
least 1 and below the counter. -/
structure EMInv (m : MockEntityManager) : Prop where
  next_pos : 1 ≤ m.next_id
  ent_nodup : m.entities.Nodup
  avail_nodup : m.available_ids.Nodup
  disjoint : ∀ x ∈ m.available_ids, x ∉ m.entities
  avail_bounds : ∀ x ∈ m.available_ids, 1 ≤ x ∧ x < m.next_id
  ent_bounds : ∀ x ∈ m.entities, 1 ≤ x ∧ x < m.next_id

lemma create_entity_of_cons {m : MockEntityManager} {a : Nat} {rest : List Nat}
    (ha : m.available_ids = a :: rest) :
    m.create_entity =
      ({ m with available_ids := rest,
                entities := m.entities.insert a }, a) := by
  unfold MockEntityManager.create_entity
  rw [ha]

lemma create_entity_of_nil {m : MockEntityManager}
    (ha : m.available_ids = []) :
    m.create_entity =
      ({ m with next_id := m.next_id + 1,
                entities := m.entities.insert m.next_id }, m.next_id) := by
  unfold MockEntityManager.create_entity
  rw [ha]

lemma emInv_init : EMInv MockEntityManager.init := by
  constructor <;> simp [MockEntityManager.init]

lemma emInv_create {m : MockEntityManager} (h : EMInv m) :
    EMInv m.create_entity.1 := by
  rcases ha : m.available_ids with _ | ⟨a, rest⟩
  · rw [create_entity_of_nil ha]
    dsimp only
    refine ⟨?_, h.ent_nodup.insert, ?_, ?_, ?_, ?_⟩
    · dsimp only
      have := h.next_pos
      omega
    · exact h.avail_nodup
    · intro x hx
      rw [ha] at hx
      simp at hx
    · intro x hx
      rw [ha] at hx
      simp at hx
    · dsimp only
      intro x hx
      have := h.next_pos
      rcases List.mem_insert_iff.mp hx with rfl | hx
      · omega
      · have := h.ent_bounds x hx
        omega
  · rw [create_entity_of_cons ha]
    dsimp only
    have hnd : (a :: rest).Nodup := ha ▸ h.avail_nodup
    have hamem : a ∈ m.available_ids := by
      rw [ha]
      exact List.mem_cons_self a rest
    refine ⟨h.next_pos, h.ent_nodup.insert, (List.nodup_cons.mp hnd).2,
      ?_, ?_, ?_⟩
    · intro x hx hmem
      have hxa : x ∈ m.available_ids := by
        rw [ha]
        exact List.mem_cons_of_mem a hx
      rcases List.mem_insert_iff.mp hmem with rfl | hmem
      · exact (List.nodup_cons.mp hnd).1 hx
      · exact h.disjoint x hxa hmem
    · intro x hx
      exact h.avail_bounds x (by rw [ha]; exact List.mem_cons_of_mem a hx)
    · intro x hx
      rcases List.mem_insert_iff.mp hx with rfl | hx
      · exact h.avail_bounds x hamem
      · exact h.ent_bounds x hx

lemma emInv_destroy {m : MockEntityManager} (h : EMInv m) (e : Nat) :
    EMInv (m.destroy_entity e).1 := by
  unfold MockEntityManager.destroy_entity
  by_cases he : e ∈ m.entities
  · rw [if_pos he]
    refine ⟨h.next_pos, h.ent_nodup.erase e, ?_, ?_, ?_, ?_⟩
    · rw [List.nodup_append]
      refine ⟨h.avail_nodup, List.nodup_singleton e, ?_⟩
      intro x hx hxe
      rw [List.mem_singleton] at hxe
      subst hxe
      exact h.disjoint x hx he
    · intro x hx
      rcases List.mem_append.mp hx with hx | hx
      · intro hmem
        exact h.disjoint x hx (List.mem_of_mem_erase hmem)
      · rw [List.mem_singleton] at hx
        subst hx
        intro hmem
        exact ((h.ent_nodup.mem_erase_iff).mp hmem).1 rfl
    · intro x hx
      rcases List.mem_append.mp hx with hx | hx
      · exact h.avail_bounds x hx
      · rw [List.mem_singleton] at hx
        subst hx
        exact h.ent_bounds x he
    · intro x hx
      exact h.ent_bounds x (List.mem_of_mem_erase hx)
  · rw [if_neg he]
    exact h

lemma emInv_step {m : MockEntityManager} (h : EMInv m) (op : EMOp) :
    EMInv (m.step op) := by
  cases op with
  | create => exact emInv_create h
  | destroy e => exact emInv_destroy h e

lemma emInv_runOps {m : MockEntityManager} (h : EMInv m) (ops : List EMOp) :
    EMInv (m.runOps ops) := by
  induction ops generalizing m with
  | nil => exact h
  | cons op ops ih => exact ih (emInv_step h op)

lemma reachable_inv {m : MockEntityManager} (h : Reachable m) : EMInv m := by
  obtain ⟨ops, rfl⟩ := h
  exact emInv_runOps emInv_init ops

lemma create_entity_fresh {m : MockEntityManager} (h : EMInv m) :
    m.create_entity.2 ∉ m.entities := by
  rcases ha : m.available_ids with _ | ⟨a, rest⟩
  · rw [create_entity_of_nil ha]
    intro hmem
    have := h.ent_bounds _ hmem
    omega
  · rw [create_entity_of_cons ha]
    exact h.disjoint a (by rw [ha]; exact List.mem_cons_self a rest)

lemma create_entity_pos {m : MockEntityManager} (h : EMInv m) :
    1 ≤ m.create_entity.2 := by
  rcases ha : m.available_ids with _ | ⟨a, rest⟩
  · rw [create_entity_of_nil ha]
    exact h.next_pos
  · rw [create_entity_of_cons ha]
    exact (h.avail_bounds a (by rw [ha]; exact List.mem_cons_self a rest)).1

lemma create_entity_mem {m : MockEntityManager} :
    m.create_entity.2 ∈ m.create_entity.1.entities := by
  rcases ha : m.available_ids with _ | ⟨a, rest⟩
  · rw [create_entity_of_nil ha]
    exact List.mem_insert_self _ _
  · rw [create_entity_of_cons ha]
    exact List.mem_insert_self _ _

/-- Claim C1: for every sequence of `create_entity` / `destroy_entity` calls
starting from a fresh entity manager, at every point the live set contains no
duplicate identifiers and `get_entity_count()` (the length of the live set)
equals the cardinality of the set of live identifiers. -/
theorem C1_uniqueness_and_count (m : MockEntityManager) (h : Reachable m) :
    m.entities.Nodup ∧ m.get_entity_count = m.entities.toFinset.card := by
  have hi := reachable_inv h
  refine ⟨hi.ent_nodup, ?_⟩
  rw [MockEntityManager.get_entity_count,
    List.toFinset_card_of_nodup hi.ent_nodup]

/-- Witness for C1 at the reachable state obtained by two creations. -/
theorem C1_uniqueness_and_count_witness :
    (MockEntityManager.init.runOps [EMOp.create, EMOp.create]).entities.Nodup ∧
    (MockEntityManager.init.runOps
        [EMOp.create, EMOp.create]).get_entity_count =
      (MockEntityManager.init.runOps
        [EMOp.create, EMOp.create]).entities.toFinset.card :=
  C1_uniqueness_and_count _ ⟨[EMOp.create, EMOp.create], rfl⟩

/-- The call sequence create, create, destroy 2, destroy 1: it leaves the
free list `[2, 1]`, whose oldest entry (2) is not its smallest (1). -/
def cexOps : List EMOp :=
  [EMOp.create, EMOp.create, EMOp.destroy 2, EMOp.destroy 1]

/-- Counterexample to claim C2 as stated: a reachable state whose free list
is `[2, 1]` — non-empty, smallest element 1 — on which `create_entity`
returns 2, the front of the FIFO queue, not the smallest element. -/
theorem C2_counterexample :
    Reachable (MockEntityManager.init.runOps cexOps) ∧
    (MockEntityManager.init.runOps cexOps).available_ids = [2, 1] ∧
    (MockEntityManager.init.runOps cexOps).create_entity.2 = 2 :=
  ⟨⟨cexOps, rfl⟩, by decide, by decide⟩

/-- Claim C2 as amended: for every reachable state whose free list of
previously-destroyed identifiers is non-empty, `create_entity` returns the
FIRST (oldest-freed, FIFO front) identifier of the free list, removes it
from the free list, and leaves the fresh counter untouched; the counter is
consulted only when the free list is empty. -/
theorem C2_fifo_reuse (m : MockEntityManager) (hr : Reachable m) (a : Nat)
    (rest : List Nat) (ha : m.available_ids = a :: rest) :
    m.create_entity.2 = a ∧
    m.create_entity.1.available_ids = rest ∧
    m.create_entity.1.next_id = m.next_id := by
  rw [create_entity_of_cons ha]
  exact ⟨rfl, rfl, rfl⟩

/-- Witness for C2 (amended) at the reachable state with free list `[2, 1]`. -/
theorem C2_fifo_reuse_witness :
    (MockEntityManager.init.runOps cexOps).create_entity.2 = 2 ∧
    (MockEntityManager.init.runOps cexOps).create_entity.1.available_ids
      = [1] ∧
    (MockEntityManager.init.runOps cexOps).create_entity.1.next_id =
      (MockEntityManager.init.runOps cexOps).next_id :=
  C2_fifo_reuse _ ⟨cexOps, rfl⟩ 2 [1] (by decide)

/-- Claim C3: `get_component` on an entity that has no component attached
returns the distinguished absent marker `none` (Python `None`, the
`NotFound` outcome): the operation is a total function, so it cannot crash,
and `none` is distinguishable from every stored value `some v`, so no
default component value is silently returned. -/
theorem C3_get_component_not_found {V : Type} (cm : MockComponentManager V)
    (e : Nat) (h : cm.has_component e = false) :
    cm.get_component e = none := by
  unfold MockComponentManager.has_component at h
  unfold MockComponentManager.get_component
  cases hc : cm.components e with
  | none => rfl
  | some v =>
      rw [hc] at h
      simp at h

/-- Witness for C3 at the empty component store. -/
theorem C3_get_component_not_found_witness :
    (MockComponentManager.empty Nat).get_component 5 = none :=
  C3_get_component_not_found _ 5 rfl

/-- Claim C4: destroying a live identifier removes it from the live set,
appends it to the back of the free list and returns success (`true`);
destroying a non-live identifier (already destroyed, never issued, or 0)
returns the failure report `false` and leaves the whole manager state
unchanged — never a silent no-op without a report. -/
theorem C4_destroy_entity_spec (m : MockEntityManager) (entity_id : Nat)
    (hr : Reachable m) :
    (m.is_entity_valid entity_id = true →
      (m.destroy_entity entity_id).2 = true ∧
      (m.destroy_entity entity_id).1.is_entity_valid entity_id = false ∧
      (m.destroy_entity entity_id).1.entities = m.entities.erase entity_id ∧
      (m.destroy_entity entity_id).1.available_ids
        = m.available_ids ++ [entity_id]) ∧
    (m.is_entity_valid entity_id = false →
      m.destroy_entity entity_id = (m, false)) := by
  have hi := reachable_inv hr
  constructor
  · intro hv
    have hmem : entity_id ∈ m.entities := by
      simpa [MockEntityManager.is_entity_valid] using hv
    unfold MockEntityManager.destroy_entity
    rw [if_pos hmem]
    refine ⟨rfl, ?_, rfl, rfl⟩
    simp only [MockEntityManager.is_entity_valid]
    dsimp only
    rw [decide_eq_false_iff_not]
    intro hmem2
    exact (hi.ent_nodup.mem_erase_iff.mp hmem2).1 rfl
  · intro hv
    have hmem : entity_id ∉ m.entities := by
      simpa [MockEntityManager.is_entity_valid] using hv
    unfold MockEntityManager.destroy_entity
    rw [if_neg hmem]

/-- Witness for C4, live branch, after one creation. -/
theorem C4_destroy_entity_spec_witness :
    ((MockEntityManager.init.runOps [EMOp.create]).destroy_entity 1).2
      = true ∧
    ((MockEntityManager.init.runOps
        [EMOp.create]).destroy_entity 1).1.is_entity_valid 1 = false ∧
    ((MockEntityManager.init.runOps [EMOp.create]).destroy_entity 1).1.entities
      = (MockEntityManager.init.runOps [EMOp.create]).entities.erase 1 ∧
    ((MockEntityManager.init.runOps
        [EMOp.create]).destroy_entity 1).1.available_ids
      = (MockEntityManager.init.runOps [EMOp.create]).available_ids ++ [1] :=
  (C4_destroy_entity_spec _ 1 ⟨[EMOp.create], rfl⟩).1 (by decide)

/-- Claim C5: component round-trip. Adding component value `v` for entity
`e` and reading it back yields exactly `v`; overwriting yields the last
value stored; a store for a different entity does not disturb the value
read for `e`; and removing the component makes `has_component e` false,
whether or not one was attached. -/
theorem C5_component_round_trip {V : Type} (cm : MockComponentManager V)
    (e eo : Nat) (v vnew vo : V) :
    (cm.add_component e v).get_component e = some v ∧
    ((cm.add_component e v).add_component e vnew).get_component e
      = some vnew ∧
    (eo ≠ e →
      ((cm.add_component e v).add_component eo vo).get_component e
        = some v) ∧
    ((cm.add_component e v).remove_component e).1.has_component e = false ∧
    (cm.remove_component e).1.has_component e = false := by
  refine ⟨?_, ?_, ?_, ?_, ?_⟩
  · simp [MockComponentManager.add_component,
      MockComponentManager.get_component]
  · simp [MockComponentManager.add_component,
      MockComponentManager.get_component]
  · intro hne
    simp [MockComponentManager.add_component,
      MockComponentManager.get_component, Ne.symm hne]
  · simp [MockComponentManager.add_component,
      MockComponentManager.remove_component,
      MockComponentManager.has_component]
  · cases hc : cm.components e with
    | none =>
        simp [MockComponentManager.remove_component,
          MockComponentManager.has_component, hc]
    | some w =>
        simp [MockComponentManager.remove_component,
          MockComponentManager.has_component, hc]

/-- Witness for C5 at the empty store, entities 1 and 2. -/
theorem C5_component_round_trip_witness :
    ((MockComponentManager.empty Nat).add_component 1 10).get_component 1
      = some 10 ∧
    (((MockComponentManager.empty Nat).add_component 1 10).add_component 1
        11).get_component 1 = some 11 ∧
    ((2 : Nat) ≠ 1 →
      (((MockComponentManager.empty Nat).add_component 1 10).add_component 2
          20).get_component 1 = some 10) ∧
    (((MockComponentManager.empty Nat).add_component 1
        10).remove_component 1).1.has_component 1 = false ∧
    ((MockComponentManager.empty Nat).remove_component 1).1.has_component 1
      = false :=
  C5_component_round_trip (MockComponentManager.empty Nat) 1 2 10 11 20

/-- Claim C6: `entity_destroyed(e)` always leaves `e` with no component —
it removes the component when one is present — and when `e` had no
component it returns the store unchanged (a state-preserving no-op). -/
theorem C6_entity_destroyed_spec {V : Type} (cm : MockComponentManager V)
    (e : Nat) :
    (cm.entity_destroyed e).has_component e = false ∧
    (cm.has_component e = false → cm.entity_destroyed e = cm) := by
  constructor
  · unfold MockComponentManager.entity_destroyed
      MockComponentManager.remove_component
    cases hc : (cm.components e).isSome with
    | false => simp [hc, MockComponentManager.has_component]
    | true => simp [hc, MockComponentManager.has_component]
  · intro h
    unfold MockComponentManager.has_component at h
    unfold MockComponentManager.entity_destroyed
      MockComponentManager.remove_component
    rw [h]
    simp

/-- Witness for C6 at the empty store. -/
theorem C6_entity_destroyed_spec_witness :
    ((MockComponentManager.empty Nat).entity_destroyed 3).has_component 3
      = false ∧
    ((MockComponentManager.empty Nat).has_component 3 = false →
      (MockComponentManager.empty Nat).entity_destroyed 3
        = MockComponentManager.empty Nat) :=
  C6_entity_destroyed_spec (MockComponentManager.empty Nat) 3

lemma create_entity_entities (m : MockEntityManager) :
    m.create_entity.1.entities = m.entities.insert m.create_entity.2 := by
  rcases ha : m.available_ids with _ | ⟨a, rest⟩
  · rw [create_entity_of_nil ha]
  · rw [create_entity_of_cons ha]

/-- Claim C7: in every reachable state, a successful `create_entity` never
returns the sentinel identifier 0, and `is_entity_valid 0` is false: 0 is
never issued and never live. -/
theorem C7_zero_never_issued (m : MockEntityManager) (hr : Reachable m) :
    m.create_entity.2 ≠ 0 ∧ m.is_entity_valid 0 = false := by
  have hi := reachable_inv hr
  constructor
  · have := create_entity_pos hi
    omega
  · simp only [MockEntityManager.is_entity_valid]
    rw [decide_eq_false_iff_not]
    intro hmem
    have := hi.ent_bounds 0 hmem
    omega

/-- Witness for C7 at the fresh manager. -/
theorem C7_zero_never_issued_witness :
    MockEntityManager.init.create_entity.2 ≠ 0 ∧
    MockEntityManager.init.is_entity_valid 0 = false :=
  C7_zero_never_issued MockEntityManager.init ⟨[], rfl⟩

/-- Claim C8: non-interference. For distinct identifiers `e1 ≠ e2`, a
creation that returns `e1`, a destruction of `e1`, and a component
attach/remove on `e1` each leave the validity, the component attachment and
the stored component value of `e2` exactly as they were. -/
theorem C8_non_interference {V : Type} (m : MockEntityManager)
    (cm : MockComponentManager V) (e1 e2 : Nat) (v : V) (h : e1 ≠ e2) :
    (m.create_entity.2 = e1 →
      m.create_entity.1.is_entity_valid e2 = m.is_entity_valid e2) ∧
    (m.destroy_entity e1).1.is_entity_valid e2 = m.is_entity_valid e2 ∧
    (cm.add_component e1 v).has_component e2 = cm.has_component e2 ∧
    (cm.add_component e1 v).get_component e2 = cm.get_component e2 ∧
    (cm.remove_component e1).1.has_component e2 = cm.has_component e2 ∧
    (cm.remove_component e1).1.get_component e2 = cm.get_component e2 := by
  refine ⟨?_, ?_, ?_, ?_, ?_, ?_⟩
  · intro hc
    simp only [MockEntityManager.is_entity_valid, create_entity_entities]
    rw [decide_eq_decide]
    constructor
    · intro hx
      rcases List.mem_insert_iff.mp hx with hx | hx
      · exact absurd (hx.trans hc).symm h
      · exact hx
    · exact fun hx => List.mem_insert_iff.mpr (Or.inr hx)
  · unfold MockEntityManager.destroy_entity
    by_cases he1 : e1 ∈ m.entities
    · rw [if_pos he1]
      simp only [MockEntityManager.is_entity_valid]
      dsimp only
      rw [decide_eq_decide]
      exact List.mem_erase_of_ne (Ne.symm h)
    · rw [if_neg he1]
  · simp [MockComponentManager.add_component,
      MockComponentManager.has_component, Ne.symm h]
  · simp [MockComponentManager.add_component,
      MockComponentManager.get_component, Ne.symm h]
  · cases hc : (cm.components e1).isSome with
    | false =>
        simp [MockComponentManager.remove_component, hc]
    | true =>
        simp [MockComponentManager.remove_component,
          MockComponentManager.has_component, hc, Ne.symm h]
  · cases hc : (cm.components e1).isSome with
    | false =>
        simp [MockComponentManager.remove_component, hc]
    | true =>
        simp [MockComponentManager.remove_component,
          MockComponentManager.get_component, hc, Ne.symm h]

/-- Witness for C8: destruction of entity 1 leaves the validity of
entity 2 unchanged on the fresh manager. -/
theorem C8_non_interference_witness :
    (MockEntityManager.init.destroy_entity 1).1.is_entity_valid 2 =
      MockEntityManager.init.is_entity_valid 2 :=
  (C8_non_interference MockEntityManager.init
    (MockComponentManager.empty Nat) 1 2 0 (by decide)).2.1

/-- Claim C9: `create_entity` has a defined outcome in every reachable
state: it is a total function that always succeeds, returning a nonzero
identifier that was not live before the call and is live after it. The
identifier space of the embedding (`Nat`, Python's unbounded integer) is
never exhausted, so the `CapacityExceeded` arm of the claim holds
vacuously: exhaustion never occurs, and in particular is never an
undefined outcome. -/
theorem C9_create_entity_defined (m : MockEntityManager)
    (hr : Reachable m) :
    m.create_entity.2 ≠ 0 ∧
    m.is_entity_valid m.create_entity.2 = false ∧
    m.create_entity.1.is_entity_valid m.create_entity.2 = true := by
  have hi := reachable_inv hr
  refine ⟨?_, ?_, ?_⟩
  · have := create_entity_pos hi
    omega
  · simp only [MockEntityManager.is_entity_valid]
    rw [decide_eq_false_iff_not]
    exact create_entity_fresh hi
  · simp only [MockEntityManager.is_entity_valid]
    rw [decide_eq_true_eq]
    exact create_entity_mem

/-- Witness for C9 at the fresh manager. -/
theorem C9_create_entity_defined_witness :
    MockEntityManager.init.create_entity.2 ≠ 0 ∧
    MockEntityManager.init.is_entity_valid
      MockEntityManager.init.create_entity.2 = false ∧
    MockEntityManager.init.create_entity.1.is_entity_valid
      MockEntityManager.init.create_entity.2 = true :=
  C9_create_entity_defined MockEntityManager.init ⟨[], rfl⟩

/-- Claim C10: in every reachable state the free list holds no duplicates,
is disjoint from the live set, and every identifier in the free list or the
live set is at least 1 and strictly below `next_id`; hence a recycled
identifier cannot collide with a live one and the counter cannot re-mint an
issued identifier. -/
theorem C10_free_list_invariants (m : MockEntityManager)
    (hr : Reachable m) :
    m.available_ids.Nodup ∧
    (∀ x ∈ m.available_ids, x ∉ m.entities) ∧
    (∀ x ∈ m.available_ids, 1 ≤ x ∧ x < m.next_id) ∧
    (∀ x ∈ m.entities, 1 ≤ x ∧ x < m.next_id) := by
  have hi := reachable_inv hr
  exact ⟨hi.avail_nodup, hi.disjoint, hi.avail_bounds, hi.ent_bounds⟩

/-- Witness for C10 after one creation and one destruction. -/
theorem C10_free_list_invariants_witness :
    (MockEntityManager.init.runOps
      [EMOp.create, EMOp.destroy 1]).available_ids.Nodup :=
  (C10_free_list_invariants _ ⟨[EMOp.create, EMOp.destroy 1], rfl⟩).1
